import Mathlib

/-!
Shallow embedding of kv3lib-py (`src/kv3.py`, `src/kv3reader.py`): the KV3
value model, the serializer `KV3File.__str__`, and the parser formed by
`kv3grammar` together with the `KV3Builder` visitor, plus theorems checking
the specification's claims against these definitions.

Conventions of the embedding:
* Python machine-independent `int` is `Int`; the text grammar works on
  `List Char` (a Python `str` is a sequence of code points).
* Python `float` values (IEEE 754 doubles) are not modelled; no claim
  depends on float semantics.  A document containing a `float` token falls
  outside the embedded fragment and the embedded parser rejects it.
* The `flag` bit-set (`enum.Flag` in kv3.py) is a `Nat` bit mask over the
  five declared members.
-/

namespace KV3

/-! ### Character classes (from the grammar's regexes in kv3reader.py)

`identifier = ~"[a-zA-Z0-9_]+"i`, `int = ~"-?[0-9]+"`,
`guid = ~"{[a-f0-9]{8}-..."i` (case-insensitive hex), `ws = ~r"\s+" / ...`.
Characters are compared through their code points. -/

def isDigitCh (c : Char) : Bool := 48 ≤ c.toNat && c.toNat ≤ 57

def isIdentCh (c : Char) : Bool :=
  (48 ≤ c.toNat && c.toNat ≤ 57) || (65 ≤ c.toNat && c.toNat ≤ 90) ||
    (97 ≤ c.toNat && c.toNat ≤ 122) || c.toNat == 95

def isHexCh (c : Char) : Bool :=
  (48 ≤ c.toNat && c.toNat ≤ 57) || (97 ≤ c.toNat && c.toNat ≤ 102) ||
    (65 ≤ c.toNat && c.toNat ≤ 70)

/-- ASCII range of Python's `\s` (the serialized texts of the claims only
use space, tab and newline). -/
def isWsCh (c : Char) : Bool :=
  c == ' ' || c == '\t' || c == '\n' || c == '\r' || c == '\x0b' || c == '\x0c'

/-! ### Decimal printing, `str(int)` in Python -/

def decDigitChar : Nat → Char
  | 0 => '0' | 1 => '1' | 2 => '2' | 3 => '3' | 4 => '4'
  | 5 => '5' | 6 => '6' | 7 => '7' | 8 => '8' | _ => '9'

def digitVal (c : Char) : Nat := c.toNat - 48

/-- Decimal digits, most significant first, structurally recursive on a fuel
bound (`n / 10 < n` shrinks strictly, so any fuel above `n` is enough). -/
def natDigitsAux : Nat → Nat → List Char
  | 0, _ => []
  | fuel + 1, n =>
    if n < 10 then [decDigitChar n]
    else natDigitsAux fuel (n / 10) ++ [decDigitChar (n % 10)]

/-- Decimal digits of `n`, most significant first, no leading zeros. -/
def natDigits (n : Nat) : List Char := natDigitsAux (n + 1) n

/-- Value of a digit string (what Python's `int(text)` does on the digits). -/
def decVal (ds : List Char) : Nat := ds.foldl (fun a c => 10 * a + digitVal c) 0

/-- Python's `str` of an `int`: optional minus sign, then decimal digits. -/
def intToDec (n : Int) : String :=
  if n < 0 then String.mk ('-' :: natDigits n.natAbs) else String.mk (natDigits n.natAbs)

/-! ### Lower-case hexadecimal printing (GUID groups) -/

def hexDigitChar : Nat → Char
  | 0 => '0' | 1 => '1' | 2 => '2' | 3 => '3' | 4 => '4' | 5 => '5'
  | 6 => '6' | 7 => '7' | 8 => '8' | 9 => '9' | 10 => 'a' | 11 => 'b'
  | 12 => 'c' | 13 => 'd' | 14 => 'e' | _ => 'f'

/-- Value of a hex digit, accepting both cases (the guid regex carries the
`i` flag). -/
def hexDigitVal (c : Char) : Nat :=
  if c.toNat ≤ 57 then c.toNat - 48
  else if c.toNat ≤ 70 then c.toNat - 55
  else c.toNat - 87

/-- `w` lower-case hex digits of `v` (digit positions `w-1` down to `0`),
most significant first. -/
def hexFixed : Nat → Nat → List Char
  | 0, _ => []
  | w + 1, v => hexDigitChar (v / 16 ^ w % 16) :: hexFixed w v

/-! ### The value model (kv3.py)

`simple_types = None | bool | int | float | enum.Enum | str | str_multiline`,
`container_types = list[...] | dict[...]`, plus the `flagged_value` wrapper.
Python `dict` keys are arbitrary hashable objects and the serializer
dispatches on `isinstance(key, str)`; the embedding models the two key
shapes that occur, strings and ints.  `float` is omitted (IEEE 754 is not
modelled; no claim depends on it). -/

inductive DictKey where
  | str (s : String)
  | int (n : Int)
deriving DecidableEq

inductive Value where
  | null
  | bool (b : Bool)
  | int (n : Int)
  | str (s : String)
  | multiline (s : String)
  | arr (elems : List Value)
  | obj (pairs : List (DictKey × Value))
  | flagged (value : Value) (flags : Nat)

/-! ### Flags (kv3.py `class flag(enum.Flag)`)

Members in declaration order with `enum.auto` values.  The custom
`flag.__str__` written in kv3.py (`"+".join(val.name for val in
self.__class__ if self.value & val)`) is DEAD CODE: the `@enum.global_enum`
decorator — available only on Python 3.11+, which this module needs anyway —
replaces a non-ReprEnum class's `__str__` with `enum.global_str`.
`global_str` prints the member's `_name_`; a composite flag value is a
pseudo-member whose `_name_` is the `'|'`-join of the set members' names in
ascending-bit (that is, declaration) order, and a value with no name (the
empty combination `flag(0)`) prints as `"flag(0)"`.  (The shadowed custom
method could not have run anyway: its `self.value & val` is an int-and-flag
operand `TypeError`.) -/

def flagMembers : List (String × Nat) :=
  [("resource", 1), ("resourcename", 2), ("panorama", 4), ("soundevent", 8),
    ("subclass", 16)]

def flagNames (v : Nat) : List String :=
  (flagMembers.filter (fun p => v &&& p.2 != 0)).map Prod.fst

/-- Python's `sep.join(parts)`: the parts with `sep` between them. -/
def pyJoin (sep : String) : List String → String
  | [] => ""
  | [a] => a
  | a :: rest => a ++ sep ++ pyJoin sep rest

/-- `str()` of a `flag` value as the program renders it: `enum.global_str`
(see the section comment), i.e. the `'|'`-joined member names of the set
bits in declaration order, or `"flag(0)"` for the nameless empty value. -/
def flagStr (v : Nat) : String :=
  if v = 0 then "flag(0)" else pyJoin "|" (flagNames v)

/-- Default of the `flags` field of `flagged_value`: `flag(0)`, the empty
combination. -/
def flaggedDefaultFlags : Nat := 0

/-! ### The serializer (kv3.py `KV3File.__str__` / `obj_serialize`) -/

/-- One tab per indentation level: `'\t' * n`. -/
def tabs : Nat → String
  | 0 => ""
  | n + 1 => "\t" ++ tabs n

/-- Key formatting inside `obj_serialize`'s dict case:
`if not isinstance(key, str): key = f'"{key}"'` — string keys pass through
unquoted whatever they contain; non-string keys are wrapped in quotes. -/
def serializeKey : DictKey → String
  | .str s => s
  | .int n => "\"" ++ intToDec n ++ "\""

/-- `isinstance(item, dict)` test used for the array layout choice. -/
def isDictValue : Value → Bool
  | .obj _ => true
  | _ => false

mutual

/-- `obj_serialize(obj, indent, dictKey)` from kv3.py.

NOTE on the string cases: in the source, `case str():` precedes
`case str_multiline():`; since `str_multiline` subclasses `str`, the
`str()` arm captures multiline strings as well and the triple-quote arm is
unreachable.  The embedding reproduces the reachable behaviour: both
variants are wrapped in single `"` quotes. -/
def obj_serialize : Value → Nat → Bool → String
  | .flagged value fl, _, _ =>
    if fl != 0 then flagStr fl ++ ":" ++ obj_serialize value 1 false
    else obj_serialize value 1 false
  | .null, _, _ => "null"
  | .bool b, _, _ => if b then "true" else "false"
  | .str s, _, _ => "\"" ++ s ++ "\""
  | .multiline s, _, _ => "\"" ++ s ++ "\""
  | .arr elems, indent, _ =>
    if elems.any isDictValue then
      "\n" ++ tabs (indent - 1) ++ "[\n" ++ elemsBlock elems indent ++
        tabs (indent - 1) ++ "]\n"
    else
      "[" ++ pyJoin ", " (elemsInline elems indent) ++ "]"
  | .obj pairs, indent, dictKey =>
    (if dictKey then "\n" else "") ++ tabs (indent - 1) ++ "\x7b\n" ++
      pairLines pairs indent ++ tabs (indent - 1) ++ "\x7d"
  | .int n, _, _ => intToDec n

/-- Element strings of the inline array form,
`", ".join(obj_serialize(item, indent+1) for item in obj)`. -/
def elemsInline : List Value → Nat → List String
  | [], _ => []
  | v :: vs, indent => obj_serialize v (indent + 1) false :: elemsInline vs indent

/-- Element lines of the block array form,
`s += obj_serialize(item, indent+1) + ',\n'`. -/
def elemsBlock : List Value → Nat → String
  | [], _ => ""
  | v :: vs, indent => obj_serialize v (indent + 1) false ++ ",\n" ++ elemsBlock vs indent

/-- Pair lines of the dict form,
`s += ind + f"{key} = {obj_serialize(value, indent+1, dictKey=True)}\n"`. -/
def pairLines : List (DictKey × Value) → Nat → String
  | [], _ => ""
  | (k, v) :: ps, indent =>
    tabs indent ++ serializeKey k ++ " = " ++ obj_serialize v (indent + 1) true ++
      "\n" ++ pairLines ps indent

end

/-- The `_common` template of `KV3Header.__str__`:
`'<!-- kv3 encoding:%s:version{%s} format:%s:version{%s} -->'`. -/
def kv3HeaderTemplate (encoding encodingVer fmt formatVer : String) : String :=
  "<!-- kv3 encoding:" ++ encoding ++ ":version\x7b" ++ encodingVer ++
    "\x7d format:" ++ fmt ++ ":version\x7b" ++ formatVer ++ "\x7d -->"

/-- `str(KV3Header())`, the default header line (no trailing newline). -/
def defaultHeaderText : String :=
  kv3HeaderTemplate "text" "e21c7f3c-8a33-41c5-9977-a76d3a32aa0d" "generic"
    "7412167c-06e9-4698-aff2-e63eb59037e7"

/-- `KV3File.__str__`: the default header, a newline, then the serialized
root.  In kv3.py the root is the dict `self`; `obj_serialize` itself handles
every value shape, and the spec's `Document(defaultHeader, root)` carries an
arbitrary root, so the embedding takes the root as a parameter. -/
def serializeDoc (root : Value) : String :=
  defaultHeaderText ++ "\n" ++ obj_serialize root 1 false

/-! ### The header record

Modelled from the spec: kv3reader.py builds the header through `kv3.Encoding`
and `kv3.Format` (records of name and `uuid.UUID` version), which are absent
from `src/kv3.py`; spec §3 gives the record
`{encoding_name, encoding_version: GUID, format_name, format_version: GUID}`.
A GUID is a 128-bit value; its canonical text (what `uuid.UUID` prints and
what the serializer emits) is the lower-case hyphenated 8-4-4-4-12 grouping. -/

structure HeaderRec where
  encodingName : String
  encodingVersion : Nat
  formatName : String
  formatVersion : Nat
deriving DecidableEq

/-- Brace-wrapped lower-case hyphenated GUID text of a 128-bit value, as in
the `:version{...}` parts of the header template. -/
def guidChars (v : Nat) : List Char :=
  '{' :: (hexFixed 8 (v / 16 ^ 24) ++ '-' :: (hexFixed 4 (v / 16 ^ 20) ++ '-' ::
    (hexFixed 4 (v / 16 ^ 16) ++ '-' :: (hexFixed 4 (v / 16 ^ 12) ++ '-' ::
      (hexFixed 12 v ++ ['}'])))))

/-- The header line the serializer emits for an arbitrary header record
(`KV3Header.__str__`'s template, followed by the `'\n'` that
`KV3File.__str__` appends and the grammar's `header` rule consumes). -/
def formatHeader (h : HeaderRec) : String :=
  "<!-- kv3 encoding:" ++ h.encodingName ++ ":version" ++
    String.mk (guidChars h.encodingVersion) ++ " format:" ++ h.formatName ++
    ":version" ++ String.mk (guidChars h.formatVersion) ++ " -->\n"

/-- The record whose formatting is `defaultHeaderText` (the two default GUIDs
of `KV3Header` as 128-bit values). -/
def defaultHeaderRec : HeaderRec :=
  ⟨"text", 0xe21c7f3c8a3341c59977a76d3a32aa0d, "generic",
    0x7412167c06e94698aff2e63eb59037e7⟩

/-! ### Parser primitives

The grammar is PEG-style (parsimonious): ordered choice, greedy repetition,
no backtracking into a succeeded repetition.  A parser maps the remaining
input to `none` (non-match) or the semantic value plus the rest. -/

/-- Match a literal token (parsimonious string literals). -/
def lit : List Char → List Char → Option (List Char)
  | [], s => some s
  | _ :: _, [] => none
  | p :: ps, c :: cs => if c = p then lit ps cs else none

def litP (pat : String) (s : List Char) : Option (List Char) := lit pat.data s

/-- `identifier = ~"[a-zA-Z0-9_]+"i`: greedy, at least one character. -/
def parseIdent (s : List Char) : Option (List Char × List Char) :=
  if s.takeWhile isIdentCh = [] then none
  else some (s.takeWhile isIdentCh, s.dropWhile isIdentCh)

/-- `int = ~"-?[0-9]+"` reduced by `visit_int` (`int(node.text)`). -/
def parseIntTok (s : List Char) : Option (Int × List Char) :=
  match s with
  | [] => none
  | c :: r =>
    if c = '-' then
      if r.takeWhile isDigitCh = [] then none
      else some (-(decVal (r.takeWhile isDigitCh) : Int), r.dropWhile isDigitCh)
    else
      if (c :: r).takeWhile isDigitCh = [] then none
      else some ((decVal ((c :: r).takeWhile isDigitCh) : Int), (c :: r).dropWhile isDigitCh)

/-- Digits-dot-digits part of the float token test. -/
def floatTokBody (t : List Char) : Bool :=
  if t.takeWhile isDigitCh = [] then false
  else
    match t.dropWhile isDigitCh with
    | '.' :: u => u.takeWhile isDigitCh ≠ []
    | _ => false

/-- Syntactic test for `float = ~"-?[0-9]+\.[0-9]+"` (tried before `int` in
the `object` rule's ordered choice).  Only the match test is needed: float
VALUES are outside the embedded fragment. -/
def floatTokMatches (s : List Char) : Bool :=
  match s with
  | [] => false
  | c :: r => if c = '-' then floatTokBody r else floatTokBody (c :: r)

/-- `string = ~'"[^"]*"'` reduced by `visit_string` (`node.text[1:-1]`). -/
def parseStringTok (s : List Char) : Option (String × List Char) :=
  match s with
  | '"' :: r =>
    match r.dropWhile (fun c => c ≠ '"') with
    | '"' :: r2 => some (String.mk (r.takeWhile (fun c => c ≠ '"')), r2)
    | _ => none
  | _ => none

/-- `multiline_string = triple_quote triple_quote` with
`triple_quote = '"""'`: the grammar only matches the EMPTY multiline string
(exactly six quote characters); `visit_multiline_string` takes
`node.text[3:-3]`, the empty body. -/
def parseMultilineTok (s : List Char) : Option (Value × List Char) :=
  match litP "\"\"\"\"\"\"" s with
  | some r => some (.multiline "", r)
  | none => none

/-- Close a `/* ... */` comment: consume through the first `*/`. -/
def skipBlockComment : List Char → Option (List Char)
  | [] => none
  | '*' :: '/' :: r => some r
  | _ :: r => skipBlockComment r

/-- One `ws` token: `~r"\s+" / single_line_comment / multi_line_comment`. -/
def parseWsTok (s : List Char) : Option (List Char) :=
  match s with
  | [] => none
  | c :: r =>
    if isWsCh c then some (r.dropWhile isWsCh)
    else if c = '/' then
      match r with
      | '/' :: r2 =>
        match r2.dropWhile (fun ch => ch ≠ '\n') with
        | '\n' :: r3 => some r3
        | _ => none
      | '*' :: r2 => skipBlockComment r2
      | _ => none
    else none

def parseWsStar : Nat → List Char → List Char
  | 0, s => s
  | f + 1, s =>
    match parseWsTok s with
    | none => s
    | some r => parseWsStar f r

/-- `ws*`: each `ws` token consumes at least one character, so the input
length bounds the number of tokens. -/
def wsAll (s : List Char) : List Char := parseWsStar s.length s

/-- Fixed-width hex number, accumulating onto `acc` (digit concatenation, as
`uuid.UUID` reads the grouped digits left to right). -/
def parseHexFixed : Nat → Nat → List Char → Option (Nat × List Char)
  | 0, acc, s => some (acc, s)
  | w + 1, acc, s =>
    match s with
    | [] => none
    | c :: r => if isHexCh c then parseHexFixed w (16 * acc + hexDigitVal c) r else none

/-- `guid = ~"{hex8-hex4-hex4-hex4-hex12}"i` reduced to the 128-bit value
(`uuid.UUID(node.text)`). -/
def parseGuid (s : List Char) : Option (Nat × List Char) :=
  match s with
  | '{' :: r =>
    match parseHexFixed 8 0 r with
    | some (a, '-' :: r1) =>
      match parseHexFixed 4 a r1 with
      | some (b, '-' :: r2) =>
        match parseHexFixed 4 b r2 with
        | some (c, '-' :: r3) =>
          match parseHexFixed 4 c r3 with
          | some (d, '-' :: r4) =>
            match parseHexFixed 12 d r4 with
            | some (e, '}' :: r5) => some (e, r5)
            | _ => none
          | _ => none
        | _ => none
      | _ => none
    | _ => none
  | _ => none

/-- The grammar's `header` rule with `visit_header`/`visit_encoding`/
`visit_format`: `"<!-- kv3 " encoding " " format " -->\n"` where
`encoding = "encoding:" identifier ":version" guid` (adjacent literals are
fused).  Yields the header record and the rest of the input. -/
def parseHeaderRuleChars (s : List Char) : Option (HeaderRec × List Char) :=
  match litP "<!-- kv3 encoding:" s with
  | none => none
  | some r1 =>
    match parseIdent r1 with
    | none => none
    | some (enc, r2) =>
      match litP ":version" r2 with
      | none => none
      | some r3 =>
        match parseGuid r3 with
        | none => none
        | some (ev, r4) =>
          match litP " format:" r4 with
          | none => none
          | some r5 =>
            match parseIdent r5 with
            | none => none
            | some (fmt, r6) =>
              match litP ":version" r6 with
              | none => none
              | some r7 =>
                match parseGuid r7 with
                | none => none
                | some (fv, r8) =>
                  match litP " -->\n" r8 with
                  | none => none
                  | some r9 =>
                    some (⟨String.mk enc, ev, String.mk fmt, fv⟩, r9)

/-- Parse exactly one header line (the whole input is the line). -/
def parseHeaderLine (t : String) : Option HeaderRec :=
  match parseHeaderRuleChars t.data with
  | some (h, []) => some h
  | _ => none

/-! ### Builder helpers (kv3reader.py `KV3Builder`) -/

/-- `kv3.Flag[name]` lookup: the flag member with that name, `none` for a
`KeyError` (the `SemanticError{unknownFlag}` of the spec).  Modelled from the
spec for the member set: `kv3.Flag` itself is absent from src/kv3.py, but
kv3.py's `flag` enum declares exactly these members. -/
def flagOfName (s : String) : Option Nat :=
  (flagMembers.find? (fun p => p.1 = s)).map Prod.snd

/-- `visit_flags`: `return kv3.Flag[visited_children[1].text]` — only the
FINAL identifier of `flags = (identifier "+")* identifier` is looked up; the
`"+"`-joined group tokens (`gs`) are discarded without validation. -/
def visit_flags (gs : List String) (last : String) : Option Nat :=
  let _ := gs
  flagOfName last

/-- One Python dict assignment `rv[k] = v`: replace the value at an existing
key (keeping the key's position and original key object) or append. -/
def dictInsert : List (DictKey × Value) → DictKey → Value → List (DictKey × Value)
  | [], k, v => [(k, v)]
  | (k0, v0) :: m, k, v =>
    if k0 = k then (k0, v) :: m else (k0, v0) :: dictInsert m k v

/-- `visit_pairs`: `rv = {}` then `rv[kvp[0]] = kvp[1]` over the pair list in
order — duplicate keys silently overwrite (last write wins), no error. -/
def visit_pairs (ps : List (DictKey × Value)) : List (DictKey × Value) :=
  ps.foldl (fun m p => dictInsert m p.1 p.2) []

/-- Python dict lookup on the association-list model (keys are unique in
lists built by `dictInsert`). -/
def pyLookup : List (DictKey × Value) → DictKey → Option Value
  | [], _ => none
  | (k0, v0) :: m, k => if k0 = k then some v0 else pyLookup m k

/-- The value of the LAST pair with key `k`, if any. -/
def lastVal : List (DictKey × Value) → DictKey → Option Value
  | [], _ => none
  | (k0, v0) :: ps, k =>
    match lastVal ps k with
    | some v => some v
    | none => if k0 = k then some v0 else none

/-- Append a key if it is not present yet. -/
def addKey (ks : List DictKey) (k : DictKey) : List DictKey :=
  if k ∈ ks then ks else ks ++ [k]

/-- Keys in order of first occurrence (Python dict key order under repeated
assignment). -/
def firstOccs (ks : List DictKey) : List DictKey := ks.foldl addKey []

/-! ### The recursive rules (`data`/`object`/`dict`/`array`/`object_flagged`)

Fueled mutual recursion: every recursive call decreases the fuel, and the
top-level entry supplies fuel proportional to the input length (each level
of rule nesting consumes input).  Failure (`none`) covers both grammar
non-match (`SyntaxError`) and builder errors (`ValueError`, `KeyError`),
which the source never recovers from either. -/

mutual

/-- `data = (object / object_flagged)` with `visit_data`. -/
def parseData : Nat → List Char → Option (Value × List Char)
  | 0, _ => none
  | f + 1, s =>
    match parseObjectRule f s with
    | some res => some res
    | none => parseFlagged f s

/-- `object = null / true / false / float / int / multiline_string / string /
dict / array / binary_blob`, ordered choice, with the corresponding visitor
reductions.  The `float` alternative is match-tested but a float token makes
the embedded parser reject the document (IEEE semantics are out of scope).
The `binary_blob` alternative (`'#[' ~'[0-9a-f]{2}' ']'`) never yields a
semantic value: the builder's `generic_visit` result is not an "object", so
every blob leads to `ValueError`/`StopIteration` downstream; the embedding
maps it, like any other non-match, to `none`. -/
def parseObjectRule : Nat → List Char → Option (Value × List Char)
  | 0, _ => none
  | f + 1, s =>
    match litP "null" s with
    | some r => some (.null, r)
    | none =>
      match litP "true" s with
      | some r => some (.bool true, r)
      | none =>
        match litP "false" s with
        | some r => some (.bool false, r)
        | none =>
          if floatTokMatches s then none
          else
            match parseIntTok s with
            | some (n, r) => some (.int n, r)
            | none =>
              match parseMultilineTok s with
              | some res => some res
              | none =>
                match parseStringTok s with
                | some (t, r) => some (.str t, r)
                | none =>
                  match parseDict f s with
                  | some res => some res
                  | none => parseArray f s

/-- `dict = "{" pairs "}"` with `visit_dict`/`visit_pairs`. -/
def parseDict : Nat → List Char → Option (Value × List Char)
  | 0, _ => none
  | f + 1, s =>
    match s with
    | '{' :: r =>
      match parsePairs f r with
      | (ps, '}' :: r2) => some (.obj (visit_pairs ps), r2)
      | _ => none
    | _ => none

/-- `pairs = pair*`: greedy PEG star, stops at the first failing pair. -/
def parsePairs : Nat → List Char → List (DictKey × Value) × List Char
  | 0, s => ([], s)
  | f + 1, s =>
    match parsePair f s with
    | none => ([], s)
    | some (p, r) =>
      let (ps, r2) := parsePairs f r
      (p :: ps, r2)

/-- `pair = ws? key ws? "=" ws* data ws*` with `visit_pair`/`visit_key`.
NOTE: `visit_key` returns `node.text` of the whole key node, so a
string-shaped key keeps its surrounding quotes. -/
def parsePair : Nat → List Char → Option ((DictKey × Value) × List Char)
  | 0, _ => none
  | f + 1, s =>
    let s1 := match parseWsTok s with | none => s | some r => r
    match
      (match parseIdent s1 with
       | some (t, r) => some (DictKey.str (String.mk t), r)
       | none =>
         match s1 with
         | '"' :: r =>
           let body := r.takeWhile (fun c => c ≠ '"')
           match r.dropWhile (fun c => c ≠ '"') with
           | '"' :: r2 => some (DictKey.str (String.mk ('"' :: (body ++ ['"']))), r2)
           | _ => none
         | _ => none)
    with
    | none => none
    | some (k, r1) =>
      let r2 := match parseWsTok r1 with | none => r1 | some r => r
      match r2 with
      | '=' :: r3 =>
        match parseData f (wsAll r3) with
        | none => none
        | some (v, r4) => some ((k, v), wsAll r4)
      | _ => none

/-- `array = "[" items "]"` with `visit_array`. -/
def parseArray : Nat → List Char → Option (Value × List Char)
  | 0, _ => none
  | f + 1, s =>
    match s with
    | '[' :: r =>
      match parseItems f r with
      | (vs, ']' :: r2) => some (.arr vs, r2)
      | _ => none
    | _ => none

/-- `items = (ws* data ws* ",")* ws* (data ws*)?` with `visit_items`: a
greedy star of comma-terminated elements, then an optional trailing element.
When the comma is missing the failed star iteration backtracks and its
`ws* data ws*` prefix re-parses (deterministically) as the trailing part. -/
def parseItems : Nat → List Char → List Value × List Char
  | 0, s => ([], s)
  | f + 1, s =>
    let s1 := wsAll s
    match parseData f s1 with
    | none => ([], s1)
    | some (v, r) =>
      let r1 := wsAll r
      match r1 with
      | ',' :: r2 =>
        let (vs, r3) := parseItems f r2
        (v :: vs, r3)
      | _ => ([v], r1)

/-- `object_flagged = (flags ":") object` with `visit_object_flagged` and
`visit_flags`; `flags = (identifier "+")* identifier`. -/
def parseFlagged : Nat → List Char → Option (Value × List Char)
  | 0, _ => none
  | f + 1, s =>
    match parseFlags (s.length + 1) s with
    | none => none
    | some ((gs, last), r) =>
      match r with
      | ':' :: r2 =>
        match parseObjectRule f r2 with
        | none => none
        | some (v, r3) =>
          match visit_flags gs last with
          | none => none
          | some fl => some (.flagged v fl, r3)
      | _ => none

/-- `flags = (identifier "+")* identifier`: the `"+"`-joined group tokens in
order, then the final identifier. -/
def parseFlags : Nat → List Char → Option ((List String × String) × List Char)
  | 0, _ => none
  | f + 1, s =>
    match parseIdent s with
    | none => none
    | some (t, r) =>
      match r with
      | '+' :: r2 =>
        match parseFlags f r2 with
        | none => none
        | some ((gs, last), r3) => some ((String.mk t :: gs, last), r3)
      | _ => some (([], String.mk t), r)

end

/-- `kv3 = header ws* data ws*` with `visit_kv3`, requiring the whole input
to be consumed (parsimonious `Grammar.parse`).  The resulting document pairs
the header with the root value (`Document{header, root}` of spec §3; the
`KV3File(value=..., format=...)` assembly of `visit_kv3` targets a `KV3File`
shape absent from src/kv3.py).  The fuel `8 * length + 9` bounds the rule
nesting: each nesting level consumes input. -/
def parseKV3 (t : String) : Option (HeaderRec × Value) :=
  match parseHeaderRuleChars t.data with
  | none => none
  | some (hd, r0) =>
    match parseData (8 * t.data.length + 9) (wsAll r0) with
    | none => none
    | some (v, r2) =>
      match wsAll r2 with
      | [] => some (hd, v)
      | _ => none

/-! ## Lemmas about the primitives -/

theorem data_append (a b : String) : (a ++ b).data = a.data ++ b.data := rfl

theorem lit_self (l rest : List Char) : lit l (l ++ rest) = some rest := by
  induction l with
  | nil => rfl
  | cons c cs ih => simp [lit, ih]

theorem litP_self (p : String) (rest : List Char) : litP p (p.data ++ rest) = some rest :=
  lit_self _ _

theorem lit_ne_head (p : Char) (ps : List Char) (c : Char) (cs : List Char) (h : c ≠ p) :
    lit (p :: ps) (c :: cs) = none := by
  simp [lit, h]

theorem span_stop (p : Char → Bool) (s : List Char) (c : Char) (t : List Char)
    (hs : ∀ x ∈ s, p x = true) (hc : p c = false) :
    (s ++ c :: t).takeWhile p = s ∧ (s ++ c :: t).dropWhile p = c :: t := by
  induction s with
  | nil => simp [List.takeWhile, List.dropWhile, hc]
  | cons a s ih =>
    have ha : p a = true := hs a (by simp)
    have := ih (fun x hx => hs x (by simp [hx]))
    simp [List.takeWhile, List.dropWhile, ha, this.1, this.2]

theorem span_all (p : Char → Bool) (s : List Char) (hs : ∀ x ∈ s, p x = true) :
    s.takeWhile p = s ∧ s.dropWhile p = [] := by
  induction s with
  | nil => simp
  | cons a s ih =>
    have ha : p a = true := hs a (by simp)
    have := ih (fun x hx => hs x (by simp [hx]))
    simp [List.takeWhile, List.dropWhile, ha, this.1, this.2]

/-- `parseIdent` takes exactly a nonempty all-identifier prefix when the
remainder does not start with an identifier character. -/
theorem parseIdent_exact (name rest : List Char) (hn : name ≠ [])
    (h2 : ∀ c ∈ name, isIdentCh c = true)
    (hr : ∀ c, rest.head? = some c → isIdentCh c = false) :
    parseIdent (name ++ rest) = some (name, rest) := by
  cases rest with
  | nil =>
    have := span_all isIdentCh name h2
    simp [parseIdent, List.append_nil, this.1, this.2, hn]
  | cons c t =>
    have hc : isIdentCh c = false := hr c rfl
    have := span_stop isIdentCh name c t h2 hc
    simp [parseIdent, this.1, this.2, hn]

/-! ### Decimal digits -/

theorem decDigitChar_spec (k : Nat) (h : k < 10) :
    isDigitCh (decDigitChar k) = true ∧ digitVal (decDigitChar k) = k := by
  interval_cases k <;> exact ⟨by decide, by decide⟩

theorem natDigitsAux_spec : ∀ (fuel n : Nat), n < fuel →
    (∀ c ∈ natDigitsAux fuel n, isDigitCh c = true) ∧
      natDigitsAux fuel n ≠ [] ∧ decVal (natDigitsAux fuel n) = n := by
  intro fuel
  induction fuel with
  | zero => intro n h; omega
  | succ f ih =>
    intro n h
    rw [natDigitsAux]
    split
    · refine ⟨?_, by simp, ?_⟩
      · intro c hc
        simp only [List.mem_singleton] at hc
        subst hc
        exact (decDigitChar_spec n (by omega)).1
      · simp only [decVal, List.foldl]
        rw [(decDigitChar_spec n (by omega)).2]
        omega
    · have hlt : n / 10 < f := by omega
      obtain ⟨hall, hne, hval⟩ := ih (n / 10) hlt
      refine ⟨?_, by simp, ?_⟩
      · intro c hc
        rw [List.mem_append] at hc
        rcases hc with hc | hc
        · exact hall c hc
        · simp only [List.mem_singleton] at hc
          subst hc
          exact (decDigitChar_spec (n % 10) (by omega)).1
      · simp only [decVal, List.foldl_append] at *
        rw [hval]
        simp only [List.foldl]
        rw [(decDigitChar_spec (n % 10) (by omega)).2]
        omega

theorem natDigits_all (n : Nat) : ∀ c ∈ natDigits n, isDigitCh c = true :=
  (natDigitsAux_spec (n + 1) n (by omega)).1

theorem natDigits_ne_nil (n : Nat) : natDigits n ≠ [] :=
  (natDigitsAux_spec (n + 1) n (by omega)).2.1

theorem decVal_natDigits (n : Nat) : decVal (natDigits n) = n :=
  (natDigitsAux_spec (n + 1) n (by omega)).2.2

/-- A decimal digit is none of the characters the scalar alternatives and
the whitespace rule test for. -/
theorem isDigitCh_facts (c : Char) (h : isDigitCh c = true) :
    c ≠ 'n' ∧ c ≠ 't' ∧ c ≠ 'f' ∧ c ≠ '-' ∧ c ≠ '"' ∧ c ≠ '/' ∧ isWsCh c = false := by
  simp only [isDigitCh, Bool.and_eq_true, decide_eq_true_eq] at h
  refine ⟨?_, ?_, ?_, ?_, ?_, ?_, ?_⟩
  · intro hEq; exact absurd (hEq ▸ h) (by decide)
  · intro hEq; exact absurd (hEq ▸ h) (by decide)
  · intro hEq; exact absurd (hEq ▸ h) (by decide)
  · intro hEq; exact absurd (hEq ▸ h) (by decide)
  · intro hEq; exact absurd (hEq ▸ h) (by decide)
  · intro hEq; exact absurd (hEq ▸ h) (by decide)
  · by_contra hw
    simp only [Bool.not_eq_false, isWsCh, Bool.or_eq_true, beq_iff_eq] at hw
    rcases hw with ((((hw | hw) | hw) | hw) | hw) | hw <;>
      exact absurd (hw ▸ h) (by decide)

/-! ### The int and float tokens -/

theorem parseIntTok_digits (ds : List Char) (hne : ds ≠ [])
    (hall : ∀ c ∈ ds, isDigitCh c = true) :
    parseIntTok ds = some ((decVal ds : Int), []) ∧
      parseIntTok ('-' :: ds) = some (-(decVal ds : Int), []) ∧
      floatTokMatches ds = false ∧ floatTokMatches ('-' :: ds) = false := by
  have hsp := span_all isDigitCh ds hall
  have hbody : floatTokBody ds = false := by
    rw [floatTokBody, if_neg (by rw [hsp.1]; exact hne), hsp.2]
  obtain ⟨c, cs, rfl⟩ : ∃ c cs, ds = c :: cs := by
    cases ds with
    | nil => exact absurd rfl hne
    | cons c cs => exact ⟨c, cs, rfl⟩
  have hc : isDigitCh c = true := hall c (by simp)
  have hcm : c ≠ '-' := (isDigitCh_facts c hc).2.2.2.1
  refine ⟨?_, ?_, ?_, ?_⟩
  · rw [parseIntTok, if_neg hcm, if_neg (by rw [hsp.1]; exact hne), hsp.1, hsp.2]
  · rw [parseIntTok, if_pos rfl, if_neg (by rw [hsp.1]; exact hne), hsp.1, hsp.2]
  · rw [floatTokMatches, if_neg hcm, hbody]
  · rw [floatTokMatches, if_pos rfl, hbody]

theorem parseIntTok_intToDec (n : Int) :
    parseIntTok (intToDec n).data = some (n, []) ∧
      floatTokMatches (intToDec n).data = false := by
  have h := parseIntTok_digits (natDigits n.natAbs) (natDigits_ne_nil _) (natDigits_all _)
  rw [intToDec]
  split
  · show parseIntTok ('-' :: natDigits n.natAbs) = _ ∧
      floatTokMatches ('-' :: natDigits n.natAbs) = false
    rw [h.2.1, h.2.2.2, decVal_natDigits]
    refine ⟨?_, rfl⟩
    congr 2
    omega
  · show parseIntTok (natDigits n.natAbs) = _ ∧
      floatTokMatches (natDigits n.natAbs) = false
    rw [h.1, h.2.2.1, decVal_natDigits]
    refine ⟨?_, rfl⟩
    congr 2
    omega

/-! ### Hex digits and GUIDs -/

theorem hexDigitChar_spec (k : Nat) (h : k < 16) :
    isHexCh (hexDigitChar k) = true ∧ hexDigitVal (hexDigitChar k) = k := by
  interval_cases k <;> exact ⟨by decide, by decide⟩

theorem parseHexFixed_hexFixed (w : Nat) :
    ∀ (acc v : Nat) (rest : List Char),
      parseHexFixed w acc (hexFixed w v ++ rest) =
        some (acc * 16 ^ w + v % 16 ^ w, rest) := by
  induction w with
  | zero =>
    intro acc v rest
    simp [parseHexFixed, hexFixed, Nat.mod_one]
  | succ w ih =>
    intro acc v rest
    have hk : v / 16 ^ w % 16 < 16 := Nat.mod_lt _ (by omega)
    show parseHexFixed (w + 1) acc
        ((hexDigitChar (v / 16 ^ w % 16) :: hexFixed w v) ++ rest) = _
    rw [List.cons_append, parseHexFixed, (hexDigitChar_spec _ hk).1, if_pos rfl, ih,
      (hexDigitChar_spec _ hk).2]
    congr 2
    have hmod : v % 16 ^ (w + 1) = v % 16 ^ w + 16 ^ w * (v / 16 ^ w % 16) := by
      rw [pow_succ]
      exact Nat.mod_mul
    rw [hmod]
    ring

theorem parseGuid_guidChars (v : Nat) (hv : v < 16 ^ 32) (rest : List Char) :
    parseGuid (guidChars v ++ rest) = some (v, rest) := by
  simp only [guidChars, List.cons_append, List.append_assoc, List.nil_append,
    List.singleton_append, parseGuid, parseHexFixed_hexFixed, Nat.zero_mul,
    Nat.zero_add]
  congr 2
  have p8 : (16 : Nat) ^ 8 = 4294967296 := by norm_num
  have p4 : (16 : Nat) ^ 4 = 65536 := by norm_num
  have p12 : (16 : Nat) ^ 12 = 281474976710656 := by norm_num
  have p16 : (16 : Nat) ^ 16 = 18446744073709551616 := by norm_num
  have p20 : (16 : Nat) ^ 20 = 1208925819614629174706176 := by norm_num
  have p24 : (16 : Nat) ^ 24 = 79228162514264337593543950336 := by norm_num
  have p32 : (16 : Nat) ^ 32 = 340282366920938463463374607431768211456 := by norm_num
  rw [p8, p4, p12, p16, p20, p24] at *
  rw [p32] at hv
  omega

theorem mk_data (l : List Char) : (String.mk l).data = l := rfl

/-! ### Header round-trip -/

theorem parseIdent_before_lit (name : List Char) (p : String) (X : List Char)
    (hn : name ≠ []) (h2 : ∀ c ∈ name, isIdentCh c = true)
    (hp : ∀ c, (p.data ++ X).head? = some c → isIdentCh c = false) :
    parseIdent (name ++ (p.data ++ X)) = some (name, p.data ++ X) :=
  parseIdent_exact name (p.data ++ X) hn h2 hp

theorem parseHeaderRule_format (h : HeaderRec) (rest : List Char)
    (he : h.encodingName.data ≠ [])
    (he2 : ∀ c ∈ h.encodingName.data, isIdentCh c = true)
    (hf : h.formatName.data ≠ [])
    (hf2 : ∀ c ∈ h.formatName.data, isIdentCh c = true)
    (hev : h.encodingVersion < 16 ^ 32) (hfv : h.formatVersion < 16 ^ 32) :
    parseHeaderRuleChars ((formatHeader h).data ++ rest) = some (h, rest) := by
  obtain ⟨en, ev, fn, fv⟩ := h
  simp only at he he2 hf hf2 hev hfv
  have hdata : (formatHeader ⟨en, ev, fn, fv⟩).data ++ rest =
      (['<', '!', '-', '-', ' ', 'k', 'v', '3', ' ', 'e', 'n', 'c', 'o', 'd',
        'i', 'n', 'g', ':'] ++ (en.data ++
        ([':', 'v', 'e', 'r', 's', 'i', 'o', 'n'] ++ (guidChars ev ++
        ([' ', 'f', 'o', 'r', 'm', 'a', 't', ':'] ++ (fn.data ++
        ([':', 'v', 'e', 'r', 's', 'i', 'o', 'n'] ++ (guidChars fv ++
        ([' ', '-', '-', '>', '\n'] ++ rest))))))))) := by
    simp [formatHeader, data_append, mk_data, List.append_assoc]
  have lit1 : ∀ X : List Char,
      litP "<!-- kv3 encoding:" (['<', '!', '-', '-', ' ', 'k', 'v', '3', ' ',
        'e', 'n', 'c', 'o', 'd', 'i', 'n', 'g', ':'] ++ X) = some X :=
    fun X => litP_self _ X
  have litv : ∀ X : List Char,
      litP ":version" ([':', 'v', 'e', 'r', 's', 'i', 'o', 'n'] ++ X) = some X :=
    fun X => litP_self _ X
  have litf : ∀ X : List Char,
      litP " format:" ([' ', 'f', 'o', 'r', 'm', 'a', 't', ':'] ++ X) = some X :=
    fun X => litP_self _ X
  have lite : ∀ X : List Char,
      litP " -->\n" ([' ', '-', '-', '>', '\n'] ++ X) = some X :=
    fun X => litP_self _ X
  have hid : ∀ (name : List Char) (X : List Char), name ≠ [] →
      (∀ c ∈ name, isIdentCh c = true) →
      parseIdent (name ++ ([':', 'v', 'e', 'r', 's', 'i', 'o', 'n'] ++ X)) =
        some (name, [':', 'v', 'e', 'r', 's', 'i', 'o', 'n'] ++ X) := by
    intro name X hn h2
    refine parseIdent_exact name _ hn h2 ?_
    intro c hc
    simp only [List.cons_append, List.head?_cons, Option.some.injEq] at hc
    subst hc
    decide
  have etaEn : String.mk en.data = en := rfl
  have etaFn : String.mk fn.data = fn := rfl
  rw [hdata]
  simp only [parseHeaderRuleChars, lit1, litv, litf, lite,
    hid en.data _ he he2, hid fn.data _ hf hf2,
    parseGuid_guidChars ev hev, parseGuid_guidChars fv hfv, etaEn, etaFn]

/-! ### Whitespace -/

theorem wsAll_nil : wsAll [] = [] := rfl

theorem parseWsTok_none_head (c : Char) (r : List Char) (hw : isWsCh c = false)
    (hs : c ≠ '/') : parseWsTok (c :: r) = none := by
  simp [parseWsTok, hw, hs]

theorem wsAll_no_ws (s : List Char) (h : parseWsTok s = none) : wsAll s = s := by
  rw [wsAll]
  cases hl : s.length with
  | zero => rfl
  | succ m => rw [parseWsStar, h]

/-! ### The scalar alternatives of the `object` rule -/

theorem intToDec_head (n : Int) : ∃ c cs, (intToDec n).data = c :: cs ∧
    c ≠ 'n' ∧ c ≠ 't' ∧ c ≠ 'f' ∧ isWsCh c = false ∧ c ≠ '/' := by
  rw [intToDec]
  split
  · exact ⟨'-', natDigits n.natAbs, rfl, by decide, by decide, by decide,
      by decide, by decide⟩
  · obtain ⟨c, cs, hcons⟩ : ∃ c cs, natDigits n.natAbs = c :: cs := by
      cases h : natDigits n.natAbs with
      | nil => exact absurd h (natDigits_ne_nil _)
      | cons c cs => exact ⟨c, cs, rfl⟩
    have hc : isDigitCh c = true := natDigits_all _ c (by rw [hcons]; simp)
    have facts := isDigitCh_facts c hc
    exact ⟨c, cs, by rw [mk_data, hcons], facts.1, facts.2.1, facts.2.2.1,
      facts.2.2.2.2.2.2, facts.2.2.2.2.2.1⟩

theorem parseObjectRule_int (f : Nat) (n : Int) :
    parseObjectRule (f + 1) (intToDec n).data = some (.int n, []) := by
  obtain ⟨c, cs, hc, hn, ht, hf2, _, _⟩ := intToDec_head n
  have l1 : litP "null" (intToDec n).data = none := by
    rw [hc]; exact lit_ne_head 'n' ['u', 'l', 'l'] c cs hn
  have l2 : litP "true" (intToDec n).data = none := by
    rw [hc]; exact lit_ne_head 't' ['r', 'u', 'e'] c cs ht
  have l3 : litP "false" (intToDec n).data = none := by
    rw [hc]; exact lit_ne_head 'f' ['a', 'l', 's', 'e'] c cs hf2
  have hint := parseIntTok_intToDec n
  simp [parseObjectRule, l1, l2, l3, hint.1, hint.2]

theorem parseObjectRule_str (f : Nat) (s : String) (hq : '"' ∉ s.data) :
    parseObjectRule (f + 1) ('"' :: (s.data ++ ['"'])) = some (.str s, []) := by
  have hd : isDigitCh '"' = false := by decide
  have l1 : litP "null" ('"' :: (s.data ++ ['"'])) = none :=
    lit_ne_head 'n' ['u', 'l', 'l'] '"' _ (by decide)
  have l2 : litP "true" ('"' :: (s.data ++ ['"'])) = none :=
    lit_ne_head 't' ['r', 'u', 'e'] '"' _ (by decide)
  have l3 : litP "false" ('"' :: (s.data ++ ['"'])) = none :=
    lit_ne_head 'f' ['a', 'l', 's', 'e'] '"' _ (by decide)
  have hfl : floatTokMatches ('"' :: (s.data ++ ['"'])) = false := by
    simp [floatTokMatches, floatTokBody, List.takeWhile_cons, hd]
  have hint : parseIntTok ('"' :: (s.data ++ ['"'])) = none := by
    simp [parseIntTok, List.takeWhile_cons, hd]
  have hml : parseMultilineTok ('"' :: (s.data ++ ['"'])) = none := by
    have hlit : litP "\"\"\"\"\"\"" ('"' :: (s.data ++ ['"'])) = none := by
      show lit ('"' :: ['"', '"', '"', '"', '"'])  ('"' :: (s.data ++ ['"'])) = none
      rw [lit, if_pos rfl]
      cases hsd : s.data with
      | nil => rfl
      | cons c cs =>
        have hcq : c ≠ '"' := fun e => hq (by rw [hsd, e]; simp)
        exact lit_ne_head '"' ['"', '"', '"', '"'] c _ hcq
    simp [parseMultilineTok, hlit]
  have hsp := span_stop (fun c => c ≠ '"') s.data '"' []
    (by
      intro x hx
      have hxq : x ≠ '"' := fun e => hq (by rw [← e]; exact hx)
      simpa using hxq)
    (by simp)
  have hstr : parseStringTok ('"' :: (s.data ++ ['"'])) = some (s, []) := by
    rw [parseStringTok]
    simp only [hsp.2, hsp.1]
  simp [parseObjectRule, l1, l2, l3, hfl, hint, hml, hstr]

/-- Assembly of a whole-document parse whose body is a single token with no
leading whitespace and no trailing input. -/
theorem parseKV3_scalar (v : Value)
    (hws : parseWsTok (obj_serialize v 1 false).data = none)
    (hobj : ∀ f, parseObjectRule (f + 1) (obj_serialize v 1 false).data = some (v, [])) :
    parseKV3 (serializeDoc v) = some (defaultHeaderRec, v) := by
  have hdr : formatHeader defaultHeaderRec = defaultHeaderText ++ "\n" := by decide
  have hdata : (serializeDoc v).data =
      (formatHeader defaultHeaderRec).data ++ (obj_serialize v 1 false).data := by
    rw [serializeDoc, hdr]
    rfl
  have hhead := parseHeaderRule_format defaultHeaderRec
    ((obj_serialize v 1 false).data) (by decide) (by decide) (by decide) (by decide)
    (by decide) (by decide)
  have hws2 := wsAll_no_ws _ hws
  obtain ⟨g, hg⟩ : ∃ g,
      8 * ((formatHeader defaultHeaderRec).data ++
        (obj_serialize v 1 false).data).length + 9 = g + 1 + 1 :=
    ⟨8 * ((formatHeader defaultHeaderRec).data ++
      (obj_serialize v 1 false).data).length + 7, by omega⟩
  simp only [parseKV3, hdata, hhead, hws2, hg, parseData, hobj, wsAll_nil]

/-! ## The claims -/

/-- C1 (amended).  Round-trip law at the document root for the scalar shapes
that survive it: for `v` in {Null, true, false, any Int, any String whose
text contains no `"` character}, parsing the text produced by serializing
`Document(defaultHeader, v)` succeeds and yields a document whose root
equals `v`.  (As stated, the claim also covered MultilineString — which the
serializer emits in single quotes, so it re-parses as a plain String — and
strings containing `"`, whose serialization does not re-parse at all; see
the counterexample.) -/
theorem scalar_root_roundtrip_amended (v : Value)
    (h : v = .null ∨ (∃ b, v = .bool b) ∨ (∃ n, v = .int n) ∨
      (∃ s, v = .str s ∧ '"' ∉ s.data)) :
    parseKV3 (serializeDoc v) = some (defaultHeaderRec, v) := by
  rcases h with rfl | ⟨b, rfl⟩ | ⟨n, rfl⟩ | ⟨s, rfl, hq⟩
  · exact parseKV3_scalar _ (by decide)
      (fun f => by simp [parseObjectRule, litP, lit, obj_serialize])
  · cases b
    · exact parseKV3_scalar _ (by decide)
        (fun f => by simp [parseObjectRule, litP, lit, obj_serialize])
    · exact parseKV3_scalar _ (by decide)
        (fun f => by simp [parseObjectRule, litP, lit, obj_serialize])
  · refine parseKV3_scalar _ ?_ ?_
    · obtain ⟨c, cs, hc, _, _, _, hw, hs⟩ := intToDec_head n
      rw [show obj_serialize (.int n) 1 false = intToDec n from rfl, hc]
      exact parseWsTok_none_head c cs hw hs
    · intro f
      rw [show obj_serialize (.int n) 1 false = intToDec n from rfl]
      exact parseObjectRule_int f n
  · have hdata : (obj_serialize (.str s) 1 false).data = '"' :: (s.data ++ ['"']) := rfl
    refine parseKV3_scalar _ ?_ ?_
    · rw [hdata]
      exact parseWsTok_none_head _ _ (by decide) (by decide)
    · intro f
      rw [hdata]
      exact parseObjectRule_str f s hq

/-- C1 witness: the amended round-trip at the concrete root `-57`. -/
theorem scalar_root_roundtrip_witness :
    parseKV3 (serializeDoc (Value.int (-57))) =
      some (defaultHeaderRec, Value.int (-57)) :=
  scalar_root_roundtrip_amended _ (Or.inr (Or.inr (Or.inl ⟨-57, rfl⟩)))

set_option maxRecDepth 100000 in
/-- C1 counterexample.  The claim fails as stated: a MultilineString root is
serialized in single quotes (the `case str():` arm shadows
`case str_multiline():`), so it re-parses as a PLAIN String, a different
variant; and a String root containing `"` serializes to text the grammar
cannot re-parse at all. -/
theorem scalar_root_roundtrip_cex :
    parseKV3 (serializeDoc (Value.multiline "a")) =
        some (defaultHeaderRec, Value.str "a") ∧
      Value.str "a" ≠ Value.multiline "a" ∧
      parseKV3 (serializeDoc (Value.str "\"")) = none :=
  ⟨rfl, fun hEq => Value.noConfusion hEq, rfl⟩

/-- C2.  Header round-trip: for every valid header record (names nonempty
identifiers, versions 128-bit GUID values), parsing the formatted header
line yields the record back. -/
theorem header_roundtrip (h : HeaderRec)
    (he : h.encodingName.data ≠ [])
    (he2 : ∀ c ∈ h.encodingName.data, isIdentCh c = true)
    (hf : h.formatName.data ≠ [])
    (hf2 : ∀ c ∈ h.formatName.data, isIdentCh c = true)
    (hev : h.encodingVersion < 16 ^ 32) (hfv : h.formatVersion < 16 ^ 32) :
    parseHeaderLine (formatHeader h) = some h := by
  have hp := parseHeaderRule_format h [] he he2 hf hf2 hev hfv
  rw [List.append_nil] at hp
  rw [parseHeaderLine, hp]

/-- C2 witness: the default header round-trips. -/
theorem header_roundtrip_witness :
    parseHeaderLine (formatHeader defaultHeaderRec) = some defaultHeaderRec :=
  header_roundtrip defaultHeaderRec (by decide) (by decide) (by decide) (by decide)
    (by decide) (by decide)

/-- C3 (code bug).  The claim says MultilineString values are serialized in
triple double-quotes, distinguishable from plain Strings.  In the code,
`case str():` precedes `case str_multiline():` and `str_multiline`
subclasses `str`, so the triple-quote arm is dead: a MultilineString is
emitted in single quotes, identically to the String of the same text. -/
theorem multiline_serialization_bug :
    obj_serialize (Value.multiline "x") 1 false = "\"x\"" ∧
      obj_serialize (Value.multiline "x") 1 false =
        obj_serialize (Value.str "x") 1 false :=
  ⟨rfl, rfl⟩

/-! Helpers for the array-layout claim. -/

theorem pyJoin_no_newline (sep : String) (hsep : '\n' ∉ sep.data)
    (l : List String) (h : ∀ a ∈ l, '\n' ∉ a.data) :
    '\n' ∉ (pyJoin sep l).data := by
  induction l with
  | nil => simp [pyJoin]
  | cons a rest ih =>
    cases rest with
    | nil => simpa [pyJoin] using h a (by simp)
    | cons b t =>
      rw [show pyJoin sep (a :: b :: t) = a ++ sep ++ pyJoin sep (b :: t) from rfl]
      intro hmem
      rw [data_append, data_append, List.mem_append, List.mem_append] at hmem
      rcases hmem with (hm | hm) | hm
      · exact h a (by simp) hm
      · exact hsep hm
      · exact ih (fun x hx => h x (by simp [hx])) hm

theorem intToDec_no_newline (n : Int) : '\n' ∉ (intToDec n).data := by
  rw [intToDec]
  split
  · intro h
    rw [mk_data] at h
    rcases List.mem_cons.mp h with h | h
    · exact absurd h (by decide)
    · exact absurd (natDigits_all _ '\n' h) (by decide)
  · intro h
    rw [mk_data] at h
    exact absurd (natDigits_all _ '\n' h) (by decide)

theorem elemsInline_mem (xs : List Value) (i : Nat) (a : String)
    (ha : a ∈ elemsInline xs i) : ∃ x ∈ xs, a = obj_serialize x (i + 1) false := by
  induction xs with
  | nil => simp [elemsInline] at ha
  | cons x xs ih =>
    rw [elemsInline] at ha
    rcases List.mem_cons.mp ha with h | h
    · exact ⟨x, by simp, h⟩
    · obtain ⟨y, hy, hay⟩ := ih h
      exact ⟨y, by simp [hy], hay⟩

/-- C5 (amended).  Array layout rule: an array with no `Object` element is
printed as `[e1, e2, ...]` with `", "` separators and, PROVIDED no element's
own rendering contains a newline (true in particular for all-integer
arrays), no internal newlines; an array with at least one `Object` element
is printed as a block — a newline, `[` at the outer indentation on its own
line, each element's rendering followed by `,` and a newline (`Object`
elements start with one deeper level of tabs; non-`Object` elements carry no
leading indentation of their own), and `]` at the outer indentation followed
by a newline. -/
theorem array_layout_amended (xs : List Value) (indent : Nat) (dk : Bool) :
    (xs.any isDictValue = false →
      obj_serialize (.arr xs) indent dk =
        "[" ++ pyJoin ", " (elemsInline xs indent) ++ "]") ∧
    (xs.any isDictValue = true →
      obj_serialize (.arr xs) indent dk =
        "\n" ++ tabs (indent - 1) ++ "[\n" ++ elemsBlock xs indent ++
          tabs (indent - 1) ++ "]\n") ∧
    (xs.any isDictValue = false →
      (∀ x ∈ xs, '\n' ∉ (obj_serialize x (indent + 1) false).data) →
      '\n' ∉ (obj_serialize (.arr xs) indent dk).data) ∧
    ((∀ x ∈ xs, ∃ n, x = Value.int n) →
      '\n' ∉ (obj_serialize (.arr xs) indent dk).data) := by
  have hinl : xs.any isDictValue = false →
      obj_serialize (.arr xs) indent dk =
        "[" ++ pyJoin ", " (elemsInline xs indent) ++ "]" := by
    intro h
    simp [obj_serialize, h]
  have hnl : xs.any isDictValue = false →
      (∀ x ∈ xs, '\n' ∉ (obj_serialize x (indent + 1) false).data) →
      '\n' ∉ (obj_serialize (.arr xs) indent dk).data := by
    intro h hx
    rw [hinl h]
    intro hmem
    rw [data_append, data_append, List.mem_append, List.mem_append] at hmem
    rcases hmem with (hm | hm) | hm
    · exact absurd hm (by decide)
    · refine pyJoin_no_newline ", " (by decide) _ ?_ hm
      intro a ha
      obtain ⟨x, hxmem, rfl⟩ := elemsInline_mem xs indent a ha
      exact hx x hxmem
    · exact absurd hm (by decide)
  refine ⟨hinl, ?_, hnl, ?_⟩
  · intro h
    simp [obj_serialize, h]
  · intro hint
    have hno : xs.any isDictValue = false := by
      rw [List.any_eq_false]
      intro x hx
      obtain ⟨n, rfl⟩ := hint x hx
      simp [isDictValue]
    refine hnl hno ?_
    intro x hx
    obtain ⟨n, rfl⟩ := hint x hx
    exact intToDec_no_newline n

/-- C5 witness: the inline form and newline-freeness at `[1, 2, 3]`. -/
theorem array_layout_witness :
    obj_serialize (Value.arr [Value.int 1, Value.int 2, Value.int 3]) 1 false =
        "[1, 2, 3]" ∧
      '\n' ∉ (obj_serialize (Value.arr [Value.int 1, Value.int 2, Value.int 3])
        1 false).data := by
  have h := array_layout_amended [Value.int 1, Value.int 2, Value.int 3] 1 false
  constructor
  · rw [h.1 (by decide)]
    rfl
  · exact h.2.2.2 (by
      intro x hx
      simp only [List.mem_cons, List.not_mem_nil, or_false] at hx
      rcases hx with rfl | rfl | rfl
      · exact ⟨1, rfl⟩
      · exact ⟨2, rfl⟩
      · exact ⟨3, rfl⟩)

/-- C5 counterexample.  The claim's "no internal newlines" for arrays with
no `Object` element fails: a nested array that itself contains an object is
not an `Object`, so the outer array prints "inline", yet the nested block
rendering brings newlines with it. -/
theorem array_layout_cex :
    ([Value.arr [Value.obj []]].any isDictValue) = false ∧
      obj_serialize (Value.arr [Value.arr [Value.obj []]]) 1 false =
        "[\n\t[\n\t\t\x7b\n\t\t\x7d,\n\t]\n]" ∧
      '\n' ∈ (obj_serialize (Value.arr [Value.arr [Value.obj []]]) 1 false).data :=
  ⟨rfl, rfl, by decide⟩

/-- The "valid identifier token" test of the claim about key quoting:
nonempty and all characters in `[a-zA-Z0-9_]`. -/
def isIdentTok (s : String) : Bool := !s.data.isEmpty && s.data.all isIdentCh

/-- C6 (amended).  The serializer never quotes STRING keys — even ones that
are not valid identifier tokens, such as a key containing a space, pass
through bare (`if not isinstance(key, str)` is the only quoting test).  Only
non-string keys (e.g. int keys) are wrapped in double quotes. -/
theorem key_quoting_amended (s : String) (n : Int) (v : Value) (indent : Nat)
    (_h : isIdentTok s = false) :
    serializeKey (.str s) = s ∧
      serializeKey (.int n) = "\"" ++ intToDec n ++ "\"" ∧
      pairLines [(DictKey.str s, v)] indent =
        tabs indent ++ s ++ " = " ++ obj_serialize v (indent + 1) true ++ "\n" := by
  refine ⟨rfl, rfl, ?_⟩
  rw [pairLines, pairLines, serializeKey]
  rw [String.append_empty]

/-- C6 witness: the non-identifier string key `"a b"` is emitted unquoted. -/
theorem key_quoting_witness :
    isIdentTok "a b" = false ∧
      pairLines [(DictKey.str "a b", Value.int 1)] 1 =
        tabs 1 ++ "a b" ++ " = " ++ obj_serialize (Value.int 1) 2 true ++ "\n" :=
  ⟨by decide, (key_quoting_amended "a b" 1 (Value.int 1) 1 (by decide)).2.2⟩

/-- C6 counterexample.  The claim says a string key that is not a valid
identifier is emitted quoted; the code emits it bare, so the object
`{"a b": 1}` serializes with the unquoted line `a b = 1`. -/
theorem key_quoting_cex :
    isIdentTok "a b" = false ∧
      obj_serialize (Value.obj [(DictKey.str "a b", Value.int 1)]) 1 false =
        "\x7b\n\ta b = 1\n\x7d" ∧
      obj_serialize (Value.obj [(DictKey.str "a b", Value.int 1)]) 1 false ≠
        "\x7b\n\t\"a b\" = 1\n\x7d" :=
  ⟨by decide, rfl, by decide⟩

/-- C7 (code bug).  The claim — like the spec and the `'+'`-joining
`flag.__str__` written out in kv3.py — says a non-empty flag combination
prints its member names joined by `'+'` in declaration order, so a value
flagged `resourcename` then `resource` serializes as
`"resource+resourcename"`.  The program does not: `@enum.global_enum`
replaces that `__str__` with `enum.global_str`, which prints the composite
pseudo-member's name — the same names in the same declaration order but
joined with `'|'` — so the value serializes as `resource|resourcename:...`.
The order-related parts of the claim do hold of the real rendering: it is
insensitive to the order the flags were OR-ed together (bitwise OR is
commutative) and the printed names always form a subsequence of the
declaration order. -/
theorem flag_order_bug (a b : Nat) :
    flagStr (2 ||| 1) = "resource|resourcename" ∧
      flagStr (2 ||| 1) ≠ "resource+resourcename" ∧
      obj_serialize (Value.flagged Value.null (2 ||| 1)) 1 false =
        "resource|resourcename:null" ∧
      flagStr (a ||| b) = flagStr (b ||| a) ∧
      (flagNames (a ||| b)).Sublist
        ["resource", "resourcename", "panorama", "soundevent", "subclass"] :=
  ⟨rfl, by decide, rfl, by rw [Nat.lor_comm],
    List.Sublist.map Prod.fst (List.filter_sublist flagMembers)⟩

/-! Helpers for the duplicate-keys claim. -/

theorem pyLookup_dictInsert (m : List (DictKey × Value)) (a : DictKey) (v : Value)
    (k : DictKey) :
    pyLookup (dictInsert m a v) k = if a = k then some v else pyLookup m k := by
  induction m with
  | nil => simp [dictInsert, pyLookup]
  | cons p m ih =>
    obtain ⟨k1, v1⟩ := p
    by_cases h1 : k1 = a
    · subst h1
      rw [dictInsert, if_pos rfl]
      by_cases h2 : k1 = k
      · subst h2
        simp [pyLookup]
      · simp [pyLookup, h2]
    · rw [dictInsert, if_neg h1]
      by_cases h2 : k1 = k
      · subst h2
        have ha : ¬ a = k1 := fun e => h1 e.symm
        simp [pyLookup, ha]
      · simp [pyLookup, h2, ih]

theorem pyLookup_foldl (ps : List (DictKey × Value)) :
    ∀ (m : List (DictKey × Value)) (k : DictKey),
      pyLookup (ps.foldl (fun acc p => dictInsert acc p.1 p.2) m) k =
        match lastVal ps k with
        | some v => some v
        | none => pyLookup m k := by
  induction ps with
  | nil =>
    intro m k
    simp [lastVal]
  | cons p ps ih =>
    intro m k
    rw [List.foldl_cons, ih, lastVal]
    cases hl : lastVal ps k with
    | some v0 => rfl
    | none =>
      simp only
      rw [pyLookup_dictInsert]
      by_cases hpk : p.1 = k
      · simp [hpk]
      · simp [hpk]

theorem keys_dictInsert (m : List (DictKey × Value)) (a : DictKey) (v : Value) :
    (dictInsert m a v).map Prod.fst = addKey (m.map Prod.fst) a := by
  induction m with
  | nil => simp [dictInsert, addKey]
  | cons p m ih =>
    obtain ⟨k1, v1⟩ := p
    by_cases h1 : k1 = a
    · subst h1
      rw [dictInsert, if_pos rfl]
      simp [addKey]
    · rw [dictInsert, if_neg h1]
      have ha : ¬ a = k1 := fun e => h1 e.symm
      simp only [List.map_cons, ih, addKey, List.mem_cons, ha, false_or]
      by_cases h2 : a ∈ m.map Prod.fst
      · simp [h2]
      · simp [h2]

theorem keys_foldl (ps : List (DictKey × Value)) :
    ∀ m : List (DictKey × Value),
      (ps.foldl (fun acc p => dictInsert acc p.1 p.2) m).map Prod.fst =
        (ps.map Prod.fst).foldl addKey (m.map Prod.fst) := by
  induction ps with
  | nil => intro m; simp
  | cons p ps ih =>
    intro m
    rw [List.foldl_cons, ih, keys_dictInsert, List.map_cons, List.foldl_cons]

/-- C8.  `visit_pairs` never raises on duplicate keys: it is a total fold of
Python dict assignments.  The resulting mapping binds every key to the value
of its LAST occurrence in the pair list (`lastVal`), and its key order is
the order of first occurrences of the keys (`firstOccs`), so all other keys
keep their pair order. -/
theorem pairs_last_write_wins (ps : List (DictKey × Value)) (k : DictKey) :
    pyLookup (visit_pairs ps) k = lastVal ps k ∧
      (visit_pairs ps).map Prod.fst = firstOccs (ps.map Prod.fst) := by
  constructor
  · have h := pyLookup_foldl ps [] k
    show pyLookup (ps.foldl (fun acc p => dictInsert acc p.1 p.2) []) k = _
    rw [h]
    cases hl : lastVal ps k <;> rfl
  · simpa [visit_pairs, firstOccs] using keys_foldl ps []

/-! Helpers for the flag-reduction claims. -/

theorem flagOfName_ne_zero (s : String) (n : Nat) (h : flagOfName s = some n) :
    n ≠ 0 := by
  rw [flagOfName] at h
  obtain ⟨p, hp, rfl⟩ : ∃ p, flagMembers.find? (fun q => q.1 = s) = some p ∧
      p.2 = n := by
    cases hf : flagMembers.find? (fun q => q.1 = s) with
    | none => rw [hf] at h; simp at h
    | some p =>
      rw [hf] at h
      simp at h
      exact ⟨p, rfl, h⟩
  have hmem := List.mem_of_find?_eq_some hp
  rw [flagMembers] at hmem
  simp only [List.mem_cons, List.not_mem_nil, or_false] at hmem
  rcases hmem with rfl | rfl | rfl | rfl | rfl <;> decide

theorem flagOfName_isSome (s : String) :
    (flagOfName s).isSome = true ↔
      s ∈ ["resource", "resourcename", "panorama", "soundevent", "subclass"] := by
  have hmap : ∀ o : Option (String × Nat),
      (Option.map Prod.snd o).isSome = o.isSome := by
    intro o
    cases o <;> rfl
  rw [flagOfName, hmap]
  simp only [List.find?_isSome, flagMembers, List.mem_cons, List.not_mem_nil,
    or_false, decide_eq_true_eq]
  constructor
  · rintro ⟨x, hx, hpx⟩
    rcases hx with rfl | rfl | rfl | rfl | rfl <;> subst hpx <;> simp
  · rintro (rfl | rfl | rfl | rfl | rfl)
    · exact ⟨("resource", 1), by simp, by simp⟩
    · exact ⟨("resourcename", 2), by simp, by simp⟩
    · exact ⟨("panorama", 4), by simp, by simp⟩
    · exact ⟨("soundevent", 8), by simp, by simp⟩
    · exact ⟨("subclass", 16), by simp, by simp⟩

set_option maxRecDepth 100000 in
/-- C9 (amended).  `visit_flags` looks up only the LAST identifier of the
`+`-joined flag token list (`visited_children[1]`): the earlier group tokens
are discarded without validation, so reduction errors (the unknownFlag
semantic error, a `KeyError` of `Flag[...]`) exactly when the last token is
not one of the five known member names — whatever the earlier tokens are.
Parsing `resource+panorama:null` therefore yields a value flagged with
`panorama` (bit 4) alone, not with the resource|panorama combination. -/
theorem flags_last_token_amended (gs gs2 : List String) (last : String) :
    visit_flags gs last = visit_flags gs2 last ∧
      ((visit_flags gs last).isSome = true ↔
        last ∈ ["resource", "resourcename", "panorama", "soundevent", "subclass"]) ∧
      parseKV3 (defaultHeaderText ++ "\nresource+panorama:null") =
        some (defaultHeaderRec, Value.flagged Value.null 4) :=
  ⟨rfl, flagOfName_isSome last, rfl⟩

set_option maxRecDepth 100000 in
/-- C9 counterexample.  The claim says reduction raises unknownFlag IFF some
flag token does not name a known member.  But `nosuchflag` is unknown, and
`nosuchflag+resource:null` still parses successfully — to a value carrying
only `resource` (bit 1) — because only the last token is ever looked up. -/
theorem flags_unknown_token_cex :
    flagOfName "nosuchflag" = none ∧
      parseKV3 (defaultHeaderText ++ "\nnosuchflag+resource:null") =
        some (defaultHeaderRec, Value.flagged Value.null 1) :=
  ⟨rfl, rfl⟩

/-- C10.  The `flagged_value` constructor's default `flags` is the empty
combination `flag(0)`, and serializing a flagged value with empty flags
emits exactly the serialization of the inner value (`obj_serialize(value)`
at its default arguments) — no flag prefix, no `:`.  No parse can produce
an empty flag combination: `visit_flags` only ever returns one of the five
nonzero member values. -/
theorem empty_flags_transparent (v : Value) (indent : Nat) (dk : Bool) :
    flaggedDefaultFlags = 0 ∧
      obj_serialize (.flagged v flaggedDefaultFlags) indent dk =
        obj_serialize v 1 false ∧
      (∀ (gs : List String) (last : String) (n : Nat),
        visit_flags gs last = some n → n ≠ 0) :=
  ⟨rfl, by simp [obj_serialize, flaggedDefaultFlags],
    fun _gs last n h => flagOfName_ne_zero last n h⟩

/-- C8 witness: a duplicate key bound to its last value, at a concrete pair
list. -/
theorem pairs_last_write_wins_witness :
    pyLookup (visit_pairs [(DictKey.str "k", Value.int 1),
        (DictKey.str "k", Value.int 2)]) (DictKey.str "k") =
      lastVal [(DictKey.str "k", Value.int 1), (DictKey.str "k", Value.int 2)]
        (DictKey.str "k") :=
  (pairs_last_write_wins [(DictKey.str "k", Value.int 1),
    (DictKey.str "k", Value.int 2)] (DictKey.str "k")).1

/-- C9 witness: the group tokens are irrelevant at a concrete last token. -/
theorem flags_last_token_witness :
    visit_flags ["nosuchflag"] "resource" = visit_flags [] "resource" :=
  (flags_last_token_amended ["nosuchflag"] [] "resource").1

/-- C10 witness: the empty-flag serialization at a concrete inner value. -/
theorem empty_flags_transparent_witness :
    obj_serialize (Value.flagged Value.null flaggedDefaultFlags) 3 true =
      obj_serialize Value.null 1 false :=
  (empty_flags_transparent Value.null 3 true).2.1

set_option maxRecDepth 100000 in
/-- C4 (code bug).  `Document(defaultHeader, Object{})` serializes to the
default header line followed by `"\n{\n}"`, as claimed — but re-parsing that
text FAILS: the grammar's `dict = "{" pairs "}"` admits whitespace only
inside `pair`, and with zero pairs the `"\n"` before `"}"` cannot be
consumed, so the parse is a `SyntaxError` instead of an empty object. -/
theorem empty_object_roundtrip_bug :
    serializeDoc (Value.obj []) = defaultHeaderText ++ "\n\x7b\n\x7d" ∧
      parseKV3 (serializeDoc (Value.obj [])) = none :=
  ⟨rfl, rfl⟩

end KV3
